import Mathlib

/-!
Shallow embedding of `src/types.ts` of the starknet-hardhat-plugin
repository: the transaction-status polling machinery, ABI loading,
constructor-argument handling, deploy-response extraction and the
invoke/call validation path.

Conventions of the embedding:
* JavaScript strings that may be `null`/`undefined` are `Option String`;
  JS truthiness of such a value is `optStrTruthy` (`null`, `undefined`
  and `""` are falsy, every other string truthy).
* The external process collaborator's result `{statusCode, stdout, stderr}`
  is `ProcessResult`; a truthy `statusCode` is a non-zero `Nat`.
* `JSON.parse` of the status query's stdout is an external collaborator and
  is passed in as a function `String → Option StatusObject` (`none` models
  a parse exception).
* `adaptInput` (file `src/adapt.ts`, not part of the sources here) and
  `adaptUrl` (file `src/utils.ts`, likewise external) are passed in as
  function parameters; no claim below depends on their behaviour.
* An async JavaScript function that throws does not call its `resolve` /
  `reject` function parameters: the exception rejects the promise the async
  call itself returned. `iterativelyCheckStatus` is invoked with its result
  promise discarded, so a throw invokes neither caller callback; the
  embedding records this as the `CycleEffect.thrown` outcome, distinct from
  `resolveInvoked` and `rejectInvoked`.
-/

/-- Transaction status, `TxStatus` of `src/types.ts` (lines 13..28). -/
inductive TxStatus where
  | PENDING
  | NOT_RECEIVED
  | RECEIVED
  | REJECTED
  | ACCEPTED_ONCHAIN
deriving DecidableEq, Repr

/-- The object returned by `starknet tx_status`, `StatusObject` of
`src/types.ts` (lines 70..73). `block_hash` is declared `string` but may be
`null` at runtime (e.g. for a `RECEIVED` transaction), hence `Option`. -/
structure StatusObject where
  block_hash : Option String
  tx_status : TxStatus
deriving DecidableEq, Repr

/-- JS truthiness of a possibly-null/undefined string: `null`, `undefined`
and the empty string are falsy. -/
def optStrTruthy : Option String → Bool
  | none => false
  | some s => s != ""

/-- `ACCEPTABLE_STATUSES` of `src/types.ts` (line 96). -/
def ACCEPTABLE_STATUSES : List TxStatus := [.PENDING, .ACCEPTED_ONCHAIN]

/-- `UNACCEPTABLE_STATUSES` of `src/types.ts` (line 103). -/
def UNACCEPTABLE_STATUSES : List TxStatus := [.REJECTED]

/-- `isTxAccepted` of `src/types.ts` (lines 97..101):
`ACCEPTABLE_STATUSES.includes(tx_status) && block_hash && block_hash !== "pending"`.
The middle conjunct is the JS truthiness test of `block_hash`. -/
def isTxAccepted (statusObject : StatusObject) : Bool :=
  ACCEPTABLE_STATUSES.contains statusObject.tx_status
    && optStrTruthy statusObject.block_hash
    && statusObject.block_hash != some "pending"

/-- `isTxRejected` of `src/types.ts` (lines 104..106). -/
def isTxRejected (statusObject : StatusObject) : Bool :=
  UNACCEPTABLE_STATUSES.contains statusObject.tx_status

/-- Result of the external command collaborator
(`starknetWrapper.runCommand`): `{statusCode, stdout, stderr}`. -/
structure ProcessResult where
  statusCode : Nat
  stdout : String
  stderr : String
deriving DecidableEq, Repr

/-- `checkStatus` of `src/types.ts` (lines 75..94), from the point the
command result is available: a truthy (non-zero) `statusCode` throws with
the stderr text; otherwise the stdout is JSON-parsed (`parse`, external),
an unparsable body throws `"Cannot interpret the following: ..."`. -/
def checkStatus (parse : String → Option StatusObject)
    (executed : ProcessResult) : Except String StatusObject :=
  if executed.statusCode != 0 then
    .error executed.stderr
  else
    match parse executed.stdout with
    | some responseParsed => .ok responseParsed
    | none => .error ("Cannot interpret the following: " ++ executed.stdout)

/-- What one poll cycle of `iterativelyCheckStatus` (`src/types.ts`, lines
108..127) does:
* `resolveInvoked` — the caller's `resolve` callback is called;
* `rejectInvoked msg` — the caller's `reject` callback is called with `msg`;
* `thrown msg` — `checkStatus` threw; the exception leaves the async
  function without calling either callback (the promise the async call
  returned is discarded by both `deploy` and `invoke`);
* `rescheduled` — `setTimeout` schedules an identical call (same
  `arguments`) after the fixed `CHECK_STATUS_TIMEOUT` delay. -/
inductive CycleEffect where
  | resolveInvoked
  | rejectInvoked (msg : String)
  | thrown (msg : String)
  | rescheduled
deriving DecidableEq, Repr

/-- The classification step of `iterativelyCheckStatus` (lines 117..126),
applied once `checkStatus` has returned a `StatusObject`. -/
def classifyStatus (statusObject : StatusObject) : CycleEffect :=
  if isTxAccepted statusObject then .resolveInvoked
  else if isTxRejected statusObject then .rejectInvoked "Transaction rejected."
  else .rescheduled

/-- One whole poll cycle of `iterativelyCheckStatus`: run `checkStatus`,
an exception escapes (`thrown`), otherwise classify. -/
def pollCycle (parse : String → Option StatusObject)
    (executed : ProcessResult) : CycleEffect :=
  match checkStatus parse executed with
  | .error e => .thrown e
  | .ok statusObject => classifyStatus statusObject

/-- Whether a cycle's effect invokes one of the caller's two callbacks
(`resolve` / `reject`). A `thrown` cycle invokes neither: the caller's
promise is left unsettled. -/
def callbackInvoked : CycleEffect → Bool
  | .resolveInvoked => true
  | .rejectInvoked _ => true
  | .thrown _ => false
  | .rescheduled => false

/-- State of the polling wait, per the state machine reading of
`iterativelyCheckStatus`: `pending` while another cycle is scheduled,
terminal otherwise. -/
inductive PollerState where
  | pending
  | accepted
  | rejected (msg : String)
  | parseError (msg : String)
deriving DecidableEq, Repr

/-- The poller state a cycle's effect leads to. -/
def stepState : CycleEffect → PollerState
  | .resolveInvoked => .accepted
  | .rejectInvoked msg => .rejected msg
  | .thrown msg => .parseError msg
  | .rescheduled => .pending

/-- The poller's state after `n` cycles, the `k`-th cycle observing the
command result `stream k`. A terminal state is absorbing: no further cycle
is scheduled after `resolve`, `reject` or a throw. -/
def pollerRun (parse : String → Option StatusObject)
    (stream : Nat → ProcessResult) : Nat → PollerState
  | 0 => .pending
  | n + 1 =>
    match pollerRun parse stream n with
    | .pending => stepState (pollCycle parse (stream n))
    | s => s

/-- A status observation on which the poller stays pending, per the spec's
step 5: `tx_status ∈ {NOT_RECEIVED, RECEIVED}`, or `PENDING` without a
settled block reference (block hash truthy and not the sentinel
`"pending"`). -/
def stillPendingStatus (s : StatusObject) : Bool :=
  (s.tx_status == .NOT_RECEIVED || s.tx_status == .RECEIVED)
    || (s.tx_status == .PENDING
        && !(optStrTruthy s.block_hash && s.block_hash != some "pending"))

/-- A named, typed parameter of a function or constructor ABI entry
(`{name, type}` per the ABI storage format). -/
structure AbiParam where
  name : String
  type : String
deriving DecidableEq, Repr

/-- Modelled from the spec: the entry shape of `src/starknet-types.ts` is
not among the sources; per the spec's ABI storage format, an entry object
carries at minimum a `name` and a `type`, and functions/constructors carry
ordered `inputs`/`outputs` lists of `{name, type}`. `name` is `Option`
because a malformed entry may lack one (`readAbi` checks this). -/
structure AbiEntry where
  name : Option String
  type : String
  inputs : List AbiParam
  outputs : List AbiParam
deriving DecidableEq, Repr

/-- The built ABI index: a JS object mapping entry names to entries,
represented as an association list with distinct keys maintained by
`jsObjectSet`. -/
def AbiIndex := List (String × AbiEntry)

/-- JS object property assignment `abi[key] = val`: overwrite the binding
when the key is present, append it otherwise. -/
def jsObjectSet (abi : List (String × AbiEntry)) (key : String)
    (val : AbiEntry) : List (String × AbiEntry) :=
  match abi with
  | [] => [(key, val)]
  | (k, v) :: rest =>
    if k = key then (k, val) :: rest else (k, v) :: jsObjectSet rest key val

/-- JS object property read `abi[name]` on the built index. -/
def abiLookup (abi : List (String × AbiEntry)) (name : String) :
    Option AbiEntry :=
  (abi.find? (fun p => p.1 = name)).map (fun p => p.2)

/-- The loop of `readAbi` of `src/types.ts` (lines 138..144), from the
point the file has been read and JSON-parsed into a list of entries:
an entry with a falsy `name` (`!abiEntry.name`: absent or empty) throws
`"Abi entry has no name"`, every other entry is assigned into the index. -/
def readAbiLoop : List AbiEntry → List (String × AbiEntry) →
    Except String (List (String × AbiEntry))
  | [], abi => .ok abi
  | abiEntry :: rest, abi =>
    match abiEntry.name with
    | none => .error "Abi entry has no name"
    | some s =>
      if s = "" then .error "Abi entry has no name"
      else readAbiLoop rest (jsObjectSet abi s abiEntry)

/-- `readAbi` of `src/types.ts` (lines 134..147), from the parsed entry
array onward (file reading and JSON parsing are external I/O; their
failures are the spec's `AbiNotFound`, out of scope here). -/
def readAbi (abiArray : List AbiEntry) :
    Except String (List (String × AbiEntry)) :=
  readAbiLoop abiArray []

/-- Constructor arguments as `deploy` receives them: a possibly-absent JS
object of named fields (field values are opaque here). -/
def CtorArgs := Option (List (String × String))

/-- `!constructorArguments || Object.keys(constructorArguments).length === 0`
(`src/types.ts`, line 253). -/
def ctorArgsEmpty : Option (List (String × String)) → Bool
  | none => true
  | some fields => fields.isEmpty

/-- Outcome of `handleConstructorArguments`:
* `missingError` — throws `"Constructor arguments required but not provided."`;
* `unexpectedError` — throws `"Constructor arguments provided but not required."`;
* `adaptThrown msg` — the external `adaptInput` threw;
* `ok starknetArgs` — the flag list after the method returns. -/
inductive CtorArgsOutcome where
  | missingError
  | unexpectedError
  | adaptThrown (msg : String)
  | ok (starknetArgs : List String)
deriving DecidableEq, Repr

/-- The type of the external `adaptInput` collaborator (`src/adapt.ts`, not
among the sources): function name, supplied named arguments, declared
inputs, ABI index → flat string arguments, or a thrown error. -/
def AdaptInputFn :=
  String → List (String × String) → List AbiParam →
    List (String × AbiEntry) → Except String (List String)

/-- `StarknetContractFactory.handleConstructorArguments` of `src/types.ts`
(lines 251..269). The first branch runs when `this.constructorAbi` is set
(a constructor entry exists in the ABI): absent/empty arguments throw the
missing-arguments error, otherwise `adaptInput` encodes them and
`--inputs` plus the encoded values are pushed. The second branch runs when
arguments are non-empty: it throws the unexpected-arguments error exactly
when no constructor entry exists. -/
def handleConstructorArguments (adaptInput : AdaptInputFn)
    (constructorAbi : Option AbiEntry) (abi : List (String × AbiEntry))
    (constructorArguments : Option (List (String × String)))
    (starknetArgs : List String) : CtorArgsOutcome :=
  match constructorAbi with
  | some ctor =>
    if ctorArgsEmpty constructorArguments then .missingError
    else
      match adaptInput (ctor.name.getD "") (constructorArguments.getD [])
          ctor.inputs abi with
      | .error e => .adaptThrown e
      | .ok adapted => .ok (starknetArgs ++ "--inputs" :: adapted)
  | none =>
    if ctorArgsEmpty constructorArguments then .ok starknetArgs
    else .unexpectedError

/-- The line-anchored prefix of the address line of a deploy response. -/
def addressLineMarker : String := "Contract address: "

/-- The line-anchored prefix of the transaction-hash line. -/
def txHashLineMarker : String := "Transaction hash: "

/-- The regex `^P(.*)$` applied to one line: when the line's characters
start with the marker's, the capture is the rest of the line (`.` does not
cross a line break); otherwise the line does not match. -/
def lineCapture (marker line : String) : Option String :=
  if marker.data.isPrefixOf line.data
  then some (String.mk (line.data.drop marker.data.length)) else none

/-- `response.match(/^P: (.*)$/m)` on a response given as its list of
lines: the FIRST matching line wins, and the result is its capture.
`none` when no line matches. -/
def firstCapture (marker : String) : List String → Option String
  | [] => none
  | line :: rest =>
    match lineCapture marker line with
    | some captured => some captured
    | none => firstCapture marker rest

/-- The message of the extraction failure (`src/types.ts`, line 54). -/
def parseErrorMsg : String :=
  "Could not parse response. Check that you're using the correct network."

/-- `extractFromResponse` of `src/types.ts` (lines 51..57), the response
given as its list of lines: `!matched || !matched[1]` throws — no matching
line, or the first matching line's capture is the empty string. -/
def extractFromResponse (lines : List String) (marker : String) :
    Except String String :=
  match firstCapture marker lines with
  | none => .error parseErrorMsg
  | some captured =>
    if captured = "" then .error parseErrorMsg else .ok captured

/-- `extractTxHash` of `src/types.ts` (lines 59..61). -/
def extractTxHash (lines : List String) : Except String String :=
  extractFromResponse lines txHashLineMarker

/-- `extractAddress` of `src/types.ts` (lines 63..65). -/
def extractAddress (lines : List String) : Except String String :=
  extractFromResponse lines addressLineMarker

/-- The extraction phase of `StarknetContractFactory.deploy`
(`src/types.ts`, lines 227..229): extract the address, then the
transaction hash, from the submission's stdout (as lines); the first
failing extraction throws. -/
def deployExtract (lines : List String) : Except String (String × String) :=
  match extractAddress lines with
  | .error e => .error e
  | .ok address =>
    match extractTxHash lines with
    | .error e => .error e
    | .ok txHash => .ok (address, txHash)

/-- `"invoke" | "call"`, the `kind` parameter of
`StarknetContract.invokeOrCall`. -/
inductive CallKind where
  | invoke
  | call
deriving DecidableEq, Repr

/-- The string the kind contributes as the command's first argument. -/
def CallKind.str : CallKind → String
  | .invoke => "invoke"
  | .call => "call"

/-- The fields of a `StarknetContract` that `invokeOrCall` reads
(`src/types.ts`, lines 292..298): `address` is `Option` because it is
unset until assigned by `deploy` or `getContractAt`. -/
structure ContractData where
  address : Option String
  abi : List (String × AbiEntry)
  abiPath : String
  gatewayUrl : String
  feederGatewayUrl : String

/-- The `args` value a caller hands to `invoke`/`call`: absent, a named
mapping, or (erroneously) an array. -/
inductive ArgsValue where
  | absent
  | named (fields : List (String × String))
  | positional (elems : List String)
deriving DecidableEq, Repr

/-- `Array.isArray(args)` (`src/types.ts`, line 328). -/
def ArgsValue.isArray : ArgsValue → Bool
  | .positional _ => true
  | _ => false

/-- `args && Object.keys(args).length` (`src/types.ts`, line 332): truthy
when args is present with at least one own key (an array's keys are its
indices). -/
def ArgsValue.keysNonEmpty : ArgsValue → Bool
  | .absent => false
  | .named fields => !fields.isEmpty
  | .positional elems => !elems.isEmpty

/-- The named fields of an args value (what `adaptInput` receives). -/
def ArgsValue.namedFields : ArgsValue → List (String × String)
  | .named fields => fields
  | _ => []

/-- `if (signature) { push --signature; each element toString }`
(`src/types.ts`, lines 338..341; same shape as `handleSignature`). A
present empty array is truthy in JS and still pushes the flag. -/
def signatureArgs : Option (List Int) → List String
  | none => []
  | some signature => "--signature" :: signature.map toString

/-- The flag list built at `src/types.ts` lines 319..326, before the
args/signature handling. `adaptUrl` (external, `src/utils.ts`) is a
parameter. -/
def starknetBaseArgs (adaptUrl : String → String) (c : ContractData)
    (kind : CallKind) (functionName : String) : List String :=
  [kind.str,
   "--address", c.address.getD "",
   "--abi", c.abiPath,
   "--function", functionName,
   "--gateway_url", adaptUrl c.gatewayUrl,
   "--feeder_gateway_url", adaptUrl c.feederGatewayUrl]

/-- Outcome of `invokeOrCall` up to the submission point:
* `notDeployed` — throws `"Contract not deployed"`;
* `unknownFunction` — throws `"Function '...' doesn't exist on this contract."`;
* `positionalError` — throws `"Arguments should be passed in the form of an object."`;
* `adaptThrown msg` — the external `adaptInput` threw;
* `submits starknetArgs` — `runCommand("starknet", starknetArgs, ...)` is
  reached with exactly these flags (the only outcome in which the external
  process collaborator is invoked). -/
inductive InvokeOutcome where
  | notDeployed
  | unknownFunction (functionName : String)
  | positionalError
  | adaptThrown (msg : String)
  | submits (starknetArgs : List String)
deriving DecidableEq, Repr

/-- `StarknetContract.invokeOrCall` of `src/types.ts` (lines 308..343), up
to the submission point: the address truthiness check, the ABI function
lookup, the flag list, the array-args rejection, the conditional `--inputs`
encoding (skipped entirely when args is absent or has no keys), and the
signature flags. -/
def invokeOrCall (adaptUrl : String → String) (adaptInput : AdaptInputFn)
    (c : ContractData) (kind : CallKind) (functionName : String)
    (args : ArgsValue) (signature : Option (List Int)) : InvokeOutcome :=
  if !optStrTruthy c.address then .notDeployed
  else
    match abiLookup c.abi functionName with
    | none => .unknownFunction functionName
    | some func =>
      let starknetArgs := starknetBaseArgs adaptUrl c kind functionName
      if args.isArray then .positionalError
      else if args.keysNonEmpty then
        match adaptInput functionName args.namedFields func.inputs c.abi with
        | .error e => .adaptThrown e
        | .ok adapted =>
          .submits (starknetArgs ++ "--inputs" :: adapted
            ++ signatureArgs signature)
      else .submits (starknetArgs ++ signatureArgs signature)

/-- A concrete stand-in for the external `adaptInput` collaborator, used
only to instantiate theorems at closed inputs (no claim depends on its
behaviour): it emits each supplied field's value. -/
def sampleAdaptInput : AdaptInputFn :=
  fun _ fields _ _ => .ok (fields.map (fun p => p.2))

/-- Helper: `classifyStatus` resolves exactly when `isTxAccepted`. -/
theorem classifyStatus_resolve_iff (s : StatusObject) :
    classifyStatus s = .resolveInvoked ↔ isTxAccepted s = true := by
  unfold classifyStatus
  by_cases h : isTxAccepted s
  · simp [h]
  · simp [h]
    split <;> simp

/-- Helper: the Boolean acceptance test, characterized propositionally. -/
theorem isTxAccepted_iff (s : StatusObject) :
    isTxAccepted s = true ↔
      (s.tx_status = .PENDING ∨ s.tx_status = .ACCEPTED_ONCHAIN) ∧
        ∃ h, s.block_hash = some h ∧ h ≠ "" ∧ h ≠ "pending" := by
  obtain ⟨bh, ts⟩ := s
  cases ts <;> cases bh <;>
    simp [isTxAccepted, ACCEPTABLE_STATUSES, optStrTruthy]

/-- Helper: a still-pending observation is rescheduled. -/
theorem classifyStatus_of_stillPending (s : StatusObject)
    (h : stillPendingStatus s = true) : classifyStatus s = .rescheduled := by
  obtain ⟨bh, ts⟩ := s
  cases ts <;>
    simp_all [stillPendingStatus, classifyStatus, isTxAccepted, isTxRejected,
      ACCEPTABLE_STATUSES, UNACCEPTABLE_STATUSES]
  intro hb
  cases h with
  | inl h => exact absurd hb (by simp [h])
  | inr h => exact h

/-- Helper: a successful `checkStatus` makes the cycle classify its result. -/
theorem pollCycle_ok (parse : String → Option StatusObject)
    (executed : ProcessResult) (s : StatusObject)
    (hok : checkStatus parse executed = .ok s) :
    pollCycle parse executed = classifyStatus s := by
  unfold pollCycle
  rw [hok]

/-- C1: the poller classifies a transaction as Accepted (invoking the
caller's `resolve`) iff its status is `PENDING` or `ACCEPTED_ONCHAIN`, its
`block_hash` is present and truthy, and that hash is not the sentinel
`"pending"`; in particular `{tx_status: PENDING, block_hash: "pending"}`
and `{tx_status: RECEIVED, block_hash: null}` are not Accepted. -/
theorem accepted_classification_characterized :
    (∀ s : StatusObject,
      classifyStatus s = .resolveInvoked ↔
        (s.tx_status = .PENDING ∨ s.tx_status = .ACCEPTED_ONCHAIN) ∧
          ∃ h, s.block_hash = some h ∧ h ≠ "" ∧ h ≠ "pending")
    ∧ classifyStatus ⟨some "pending", .PENDING⟩ ≠ .resolveInvoked
    ∧ classifyStatus ⟨none, .RECEIVED⟩ ≠ .resolveInvoked := by
  refine ⟨fun s => (classifyStatus_resolve_iff s).trans (isTxAccepted_iff s),
    ?_, ?_⟩ <;> decide

/-- C3: when the status query's process fails (non-zero exit status) or its
stdout is not parsable, the poll cycle throws: the poller reaches the
terminal `parseError` state, but the exception escapes the detached async
call without invoking either of the caller's callbacks, so the caller's
wait is left unsettled rather than rejected. -/
theorem query_failure_throws_without_callback
    (parse : String → Option StatusObject) (executed : ProcessResult)
    (h : executed.statusCode ≠ 0 ∨ parse executed.stdout = none) :
    ∃ e, pollCycle parse executed = .thrown e
      ∧ callbackInvoked (.thrown e) = false
      ∧ stepState (.thrown e) = .parseError e := by
  by_cases hc : executed.statusCode = 0
  · have hp : parse executed.stdout = none := h.resolve_left fun hne => hne hc
    refine ⟨"Cannot interpret the following: " ++ executed.stdout, ?_, rfl, rfl⟩
    simp [pollCycle, checkStatus, hc, hp]
  · refine ⟨executed.stderr, ?_, rfl, rfl⟩
    simp [pollCycle, checkStatus, hc]

/-- Witness for C3's theorem at a concrete poll cycle: exit status 1. -/
theorem query_failure_throws_without_callback_witness :
    ∃ e, pollCycle (fun _ => none) ⟨1, "", "transport error"⟩ = .thrown e
      ∧ callbackInvoked (.thrown e) = false
      ∧ stepState (.thrown e) = .parseError e :=
  query_failure_throws_without_callback (fun _ => none) ⟨1, "", "transport error"⟩
    (Or.inl (by decide))

/-- C4: the wait only ever ends in `accepted`, `rejected` or `parseError`;
every still-pending observation (`NOT_RECEIVED`, `RECEIVED`, or `PENDING`
without a settled block reference) reschedules an identical cycle; and a
run all of whose observations are still-pending stays pending forever — no
retry count or deadline bounds it. -/
theorem wait_unbounded_until_terminal
    (parse : String → Option StatusObject) (stream : Nat → ProcessResult) :
    (∀ n, pollerRun parse stream n = .pending ∨
        pollerRun parse stream n = .accepted ∨
        (∃ m, pollerRun parse stream n = .rejected m) ∨
        (∃ m, pollerRun parse stream n = .parseError m))
    ∧ (∀ executed s, checkStatus parse executed = .ok s →
        stillPendingStatus s = true → pollCycle parse executed = .rescheduled)
    ∧ ((∀ n, ∃ s, checkStatus parse (stream n) = .ok s ∧
          stillPendingStatus s = true) →
        ∀ n, pollerRun parse stream n = .pending) := by
  refine ⟨?_, ?_, ?_⟩
  · intro n
    cases hst : pollerRun parse stream n with
    | pending => exact Or.inl rfl
    | accepted => exact Or.inr (Or.inl rfl)
    | rejected m => exact Or.inr (Or.inr (Or.inl ⟨m, rfl⟩))
    | parseError m => exact Or.inr (Or.inr (Or.inr ⟨m, rfl⟩))
  · intro executed s hok hp
    rw [pollCycle_ok parse executed s hok]
    exact classifyStatus_of_stillPending s hp
  · intro h n
    induction n with
    | zero => rfl
    | succ n ih =>
      obtain ⟨s, hs, hp⟩ := h n
      unfold pollerRun
      rw [ih]
      show stepState (pollCycle parse (stream n)) = .pending
      rw [pollCycle_ok parse (stream n) s hs,
        classifyStatus_of_stillPending s hp]
      rfl

/-- C5: a successfully parsed observation with status `REJECTED` makes the
cycle invoke the caller's `reject` with the transaction-rejected error,
and the poller reaches the terminal `rejected` state. -/
theorem rejected_status_rejects_wait
    (parse : String → Option StatusObject) (executed : ProcessResult)
    (s : StatusObject) (hok : checkStatus parse executed = .ok s)
    (hr : s.tx_status = .REJECTED) :
    pollCycle parse executed = .rejectInvoked "Transaction rejected."
    ∧ stepState (pollCycle parse executed) = .rejected "Transaction rejected." := by
  have hcl : classifyStatus s = .rejectInvoked "Transaction rejected." := by
    obtain ⟨bh, ts⟩ := s
    subst hr
    cases bh <;>
      simp [classifyStatus, isTxAccepted, isTxRejected,
        ACCEPTABLE_STATUSES, UNACCEPTABLE_STATUSES]
  rw [pollCycle_ok parse executed s hok, hcl]
  exact ⟨rfl, rfl⟩

/-- Witness for C5's theorem at a concrete rejected observation. -/
theorem rejected_status_rejects_wait_witness :
    pollCycle (fun _ => some ⟨none, .REJECTED⟩) ⟨0, "{}", ""⟩
        = .rejectInvoked "Transaction rejected."
    ∧ stepState (pollCycle (fun _ => some ⟨none, .REJECTED⟩) ⟨0, "{}", ""⟩)
        = .rejected "Transaction rejected." :=
  rejected_status_rejects_wait (fun _ => some ⟨none, .REJECTED⟩) ⟨0, "{}", ""⟩
    ⟨none, .REJECTED⟩ rfl rfl

/-- C2 (amended): `handleConstructorArguments` throws the
missing-arguments error iff a constructor entry EXISTS in the ABI
(`this.constructorAbi` set) and the supplied arguments are absent/empty,
and throws the unexpected-arguments error iff the supplied arguments are
non-empty and NO constructor entry exists — the code keys both checks on
the presence of the constructor entry, not on whether its formal parameter
list is non-empty. -/
theorem ctor_errors_keyed_on_entry_presence (adaptInput : AdaptInputFn)
    (constructorAbi : Option AbiEntry) (abi : List (String × AbiEntry))
    (constructorArguments : Option (List (String × String)))
    (starknetArgs : List String) :
    (handleConstructorArguments adaptInput constructorAbi abi
        constructorArguments starknetArgs = .missingError ↔
      constructorAbi.isSome = true ∧ ctorArgsEmpty constructorArguments = true)
    ∧ (handleConstructorArguments adaptInput constructorAbi abi
        constructorArguments starknetArgs = .unexpectedError ↔
      constructorAbi.isNone = true ∧
        ctorArgsEmpty constructorArguments = false) := by
  unfold handleConstructorArguments
  cases constructorAbi with
  | none =>
    cases he : ctorArgsEmpty constructorArguments <;> simp [he]
  | some ctor =>
    cases he : ctorArgsEmpty constructorArguments with
    | true => simp [he]
    | false =>
      simp only [he, if_false, Bool.false_eq_true]
      cases adaptInput (ctor.name.getD "") (constructorArguments.getD [])
          ctor.inputs abi <;> simp

/-- A constructor ABI entry with an empty formal parameter list, as a
zero-argument Cairo constructor produces. -/
def zeroParamConstructor : AbiEntry :=
  { name := some "constructor", type := "constructor",
    inputs := [], outputs := [] }

/-- C2 counterexample: with a constructor whose formal parameter list is
EMPTY and absent arguments, the code still throws the missing-arguments
error — refuting "fails with MissingConstructorArguments iff the
constructor's formal parameter list is non-empty and the supplied argument
object is absent or empty". -/
theorem ctor_missing_error_with_empty_param_list :
    handleConstructorArguments sampleAdaptInput (some zeroParamConstructor)
        [] none [] = .missingError
    ∧ zeroParamConstructor.inputs = [] :=
  ⟨rfl, rfl⟩

/-- A contract handle whose address was never set. -/
def undeployedContract : ContractData :=
  { address := none, abi := [], abiPath := "contract_abi.json",
    gatewayUrl := "http://gw", feederGatewayUrl := "http://fgw" }

/-- C6: invoking or calling on a handle whose address is unset fails with
the contract-not-deployed error, and the external process collaborator is
never reached (no outcome is `submits`). -/
theorem unset_address_fails_before_submission (adaptUrl : String → String)
    (adaptInput : AdaptInputFn) (c : ContractData) (kind : CallKind)
    (functionName : String) (args : ArgsValue) (signature : Option (List Int))
    (h : c.address = none) :
    invokeOrCall adaptUrl adaptInput c kind functionName args signature
        = .notDeployed
    ∧ ∀ cmd, invokeOrCall adaptUrl adaptInput c kind functionName args
        signature ≠ .submits cmd := by
  have hout : invokeOrCall adaptUrl adaptInput c kind functionName args
      signature = .notDeployed := by
    unfold invokeOrCall
    rw [h]
    rfl
  exact ⟨hout, fun cmd => by rw [hout]; exact fun hc => nomatch hc⟩

/-- Witness for C6's theorem at a concrete undeployed handle. -/
theorem unset_address_fails_before_submission_witness :
    invokeOrCall id sampleAdaptInput undeployedContract .invoke
        "increase_balance" .absent none = .notDeployed
    ∧ ∀ cmd, invokeOrCall id sampleAdaptInput undeployedContract .invoke
        "increase_balance" .absent none ≠ .submits cmd :=
  unset_address_fails_before_submission id sampleAdaptInput
    undeployedContract .invoke "increase_balance" .absent none rfl

/-- C9 counterexample: an invoke whose args is an array on a handle with
no address set fails with the contract-not-deployed error, not the
positional-arguments-rejected error — refuting "for every invoke or call
whose args value is an array, the operation fails with a
positional-arguments-rejected error". -/
theorem array_args_on_undeployed_fails_differently :
    invokeOrCall id sampleAdaptInput undeployedContract .invoke
        "increase_balance" (.positional ["1"]) none = .notDeployed
    ∧ InvokeOutcome.notDeployed ≠ .positionalError :=
  ⟨rfl, fun hc => nomatch hc⟩

/-- C9 (amended): an invoke or call whose args is an array never reaches
the submission point; when the handle's address is set and the function
exists in the ABI it fails with the positional-arguments-rejected error
(otherwise the earlier not-deployed / unknown-function checks throw
first). -/
theorem array_args_rejected_before_submission (adaptUrl : String → String)
    (adaptInput : AdaptInputFn) (c : ContractData) (kind : CallKind)
    (functionName : String) (args : ArgsValue) (signature : Option (List Int))
    (ha : args.isArray = true) :
    (∀ cmd, invokeOrCall adaptUrl adaptInput c kind functionName args
        signature ≠ .submits cmd)
    ∧ (optStrTruthy c.address = true →
        (abiLookup c.abi functionName).isSome = true →
        invokeOrCall adaptUrl adaptInput c kind functionName args signature
          = .positionalError) := by
  constructor
  · intro cmd
    unfold invokeOrCall
    cases ht : optStrTruthy c.address with
    | false => simp
    | true =>
      simp only [Bool.not_true, Bool.false_eq_true, if_false]
      cases hf : abiLookup c.abi functionName with
      | none => simp
      | some func => simp [ha]
  · intro haddr hsome
    unfold invokeOrCall
    rw [haddr]
    obtain ⟨func, hfunc⟩ := Option.isSome_iff_exists.mp hsome
    rw [hfunc]
    simp [ha]

/-- A single-input function entry, per the spec's `increase_balance`
example. -/
def balanceFunction : AbiEntry :=
  { name := some "increase_balance", type := "function",
    inputs := [{ name := "amount", type := "felt" }], outputs := [] }

/-- A deployed handle whose ABI has `increase_balance`. -/
def deployedContract : ContractData :=
  { address := some "0x123", abi := [("increase_balance", balanceFunction)],
    abiPath := "contract_abi.json",
    gatewayUrl := "http://gw", feederGatewayUrl := "http://fgw" }

/-- Witness for C9's amended theorem at a concrete deployed handle. -/
theorem array_args_rejected_before_submission_witness :
    (∀ cmd, invokeOrCall id sampleAdaptInput deployedContract .invoke
        "increase_balance" (.positional ["1"]) none ≠ .submits cmd)
    ∧ (optStrTruthy deployedContract.address = true →
        (abiLookup deployedContract.abi "increase_balance").isSome = true →
        invokeOrCall id sampleAdaptInput deployedContract .invoke
          "increase_balance" (.positional ["1"]) none = .positionalError) :=
  array_args_rejected_before_submission id sampleAdaptInput deployedContract
    .invoke "increase_balance" (.positional ["1"]) none rfl

/-- C10: for a function whose declared input list is non-empty, absent or
empty args are not rejected client-side: the `--inputs` flag is omitted
(the command is exactly the base flags plus the signature flags,
independent of `adaptInput`) and the submission proceeds; the
missing-arguments check exists only for constructor arguments during
deploy. -/
theorem empty_args_skip_inputs_and_submit (adaptUrl : String → String)
    (adaptInput : AdaptInputFn) (c : ContractData) (kind : CallKind)
    (functionName : String) (func : AbiEntry) (args : ArgsValue)
    (signature : Option (List Int))
    (haddr : optStrTruthy c.address = true)
    (hfn : abiLookup c.abi functionName = some func)
    (_hinputs : func.inputs ≠ [])
    (hargs : args = .absent ∨ args = .named []) :
    invokeOrCall adaptUrl adaptInput c kind functionName args signature
      = .submits (starknetBaseArgs adaptUrl c kind functionName
          ++ signatureArgs signature)
    ∧ ∀ ctorEntry cArgs, ctorArgsEmpty cArgs = true →
        handleConstructorArguments adaptInput (some ctorEntry) c.abi cArgs []
          = .missingError := by
  constructor
  · unfold invokeOrCall
    rw [haddr, hfn]
    have he : args.isArray = false ∧ args.keysNonEmpty = false := by
      cases hargs with
      | inl h => subst h; exact ⟨rfl, rfl⟩
      | inr h => subst h; exact ⟨rfl, rfl⟩
    simp [he.1, he.2]
  · intro ctorEntry cArgs hce
    unfold handleConstructorArguments
    rw [hce]
    rfl

/-- Witness for C10's theorem at a concrete deployed handle and the
one-input `increase_balance` function. -/
theorem empty_args_skip_inputs_and_submit_witness :
    invokeOrCall id sampleAdaptInput deployedContract .invoke
        "increase_balance" .absent none
      = .submits (starknetBaseArgs id deployedContract .invoke
          "increase_balance" ++ signatureArgs none)
    ∧ ∀ ctorEntry cArgs, ctorArgsEmpty cArgs = true →
        handleConstructorArguments sampleAdaptInput (some ctorEntry)
          deployedContract.abi cArgs [] = .missingError :=
  empty_args_skip_inputs_and_submit id sampleAdaptInput deployedContract
    .invoke "increase_balance" balanceFunction .absent none rfl rfl
    (fun hc => nomatch hc) (Or.inl rfl)

/-- Helper: no matching line throws the parse error. -/
theorem extractFromResponse_of_no_match (lines : List String)
    (marker : String) (h : firstCapture marker lines = none) :
    extractFromResponse lines marker = .error parseErrorMsg := by
  unfold extractFromResponse
  rw [h]

/-- Helper: every extraction failure carries the one parse-error message. -/
theorem extractFromResponse_error_msg (lines : List String)
    (marker e : String) (h : extractFromResponse lines marker = .error e) :
    e = parseErrorMsg := by
  unfold extractFromResponse at h
  cases hf : firstCapture marker lines with
  | none =>
    rw [hf] at h
    injection h with h
    exact h.symm
  | some c =>
    rw [hf] at h
    dsimp only at h
    by_cases hc : c = ""
    · rw [if_pos hc] at h
      injection h with h
      exact h.symm
    · rw [if_neg hc] at h
      exact nomatch h

/-- Helper: an extraction succeeds exactly on a non-empty first capture. -/
theorem extractFromResponse_ok_inv (lines : List String)
    (marker cap : String) (h : extractFromResponse lines marker = .ok cap) :
    firstCapture marker lines = some cap ∧ cap ≠ "" := by
  unfold extractFromResponse at h
  cases hf : firstCapture marker lines with
  | none =>
    rw [hf] at h
    exact nomatch h
  | some c =>
    rw [hf] at h
    dsimp only at h
    by_cases hc : c = ""
    · rw [if_pos hc] at h
      exact nomatch h
    · rw [if_neg hc] at h
      injection h with h
      subst h
      exact ⟨rfl, hc⟩

/-- Helper: converse direction of the success characterization. -/
theorem extractFromResponse_ok_of (lines : List String) (marker cap : String)
    (h1 : firstCapture marker lines = some cap) (h2 : cap ≠ "") :
    extractFromResponse lines marker = .ok cap := by
  unfold extractFromResponse
  rw [h1]
  dsimp only
  rw [if_neg h2]

/-- C7 (amended): deploy's extraction succeeds, yielding the address and
transaction hash, exactly when the FIRST line matching
`^Contract address: (.*)$` has a non-empty capture and the FIRST line
matching `^Transaction hash: (.*)$` has a non-empty capture (a first
matching line with an empty remainder fails even if a later matching line
has a non-empty one); absence of either line makes deploy fail with the
parse error. -/
theorem deploy_extraction_first_match (lines : List String)
    (address txHash : String) :
    (deployExtract lines = .ok (address, txHash) ↔
      firstCapture addressLineMarker lines = some address ∧ address ≠ ""
        ∧ firstCapture txHashLineMarker lines = some txHash ∧ txHash ≠ "")
    ∧ ((firstCapture addressLineMarker lines = none ∨
          firstCapture txHashLineMarker lines = none) →
        deployExtract lines = .error parseErrorMsg) := by
  constructor
  · constructor
    · intro h
      unfold deployExtract at h
      cases ha : extractAddress lines with
      | error e =>
        rw [ha] at h
        exact nomatch h
      | ok a =>
        rw [ha] at h
        cases ht : extractTxHash lines with
        | error e =>
          rw [ht] at h
          exact nomatch h
        | ok t =>
          rw [ht] at h
          injection h with h
          injection h with h1 h2
          subst h1
          subst h2
          unfold extractAddress at ha
          unfold extractTxHash at ht
          obtain ⟨hf1, hn1⟩ := extractFromResponse_ok_inv lines addressLineMarker a ha
          obtain ⟨hf2, hn2⟩ := extractFromResponse_ok_inv lines txHashLineMarker t ht
          exact ⟨hf1, hn1, hf2, hn2⟩
    · rintro ⟨hf1, hn1, hf2, hn2⟩
      have ha : extractAddress lines = .ok address :=
        extractFromResponse_ok_of lines addressLineMarker address hf1 hn1
      have ht : extractTxHash lines = .ok txHash :=
        extractFromResponse_ok_of lines txHashLineMarker txHash hf2 hn2
      unfold deployExtract
      rw [ha, ht]
  · intro h
    cases h with
    | inl h =>
      have ha : extractAddress lines = .error parseErrorMsg :=
        extractFromResponse_of_no_match lines addressLineMarker h
      unfold deployExtract
      rw [ha]
    | inr h =>
      have ht : extractTxHash lines = .error parseErrorMsg :=
        extractFromResponse_of_no_match lines txHashLineMarker h
      unfold deployExtract
      cases ha : extractAddress lines with
      | error e =>
        have he : e = parseErrorMsg :=
          extractFromResponse_error_msg lines addressLineMarker e ha
        subst he
        rfl
      | ok a =>
        rw [ht]

/-- A deploy response whose first address line has an empty remainder,
though a later address line carries one. -/
def conflictingResponseLines : List String :=
  ["Contract address: ", "Contract address: 0x1", "Transaction hash: 0x2"]

/-- C7 counterexample: this response CONTAINS a line matching
`^Contract address: (.*)$` with a non-empty capture and a line matching
`^Transaction hash: (.*)$` with a non-empty capture, yet extraction fails
(the first address line's capture is empty) — refuting "parsing succeeds
... exactly when the text contains a line matching ... with non-empty
captures". -/
theorem first_match_empty_capture_fails :
    deployExtract conflictingResponseLines = .error parseErrorMsg
    ∧ (∃ l ∈ conflictingResponseLines, ∃ cap,
        lineCapture addressLineMarker l = some cap ∧ cap ≠ "")
    ∧ (∃ l ∈ conflictingResponseLines, ∃ cap,
        lineCapture txHashLineMarker l = some cap ∧ cap ≠ "") := by
  refine ⟨rfl, ?_, ?_⟩
  · exact ⟨"Contract address: 0x1", by decide, "0x1", by decide, by decide⟩
  · exact ⟨"Transaction hash: 0x2", by decide, "0x2", by decide, by decide⟩

/-- Helper: membership after a JS object assignment. -/
theorem jsObjectSet_mem (abi : List (String × AbiEntry)) (key : String)
    (val : AbiEntry) (p : String × AbiEntry)
    (h : p ∈ jsObjectSet abi key val) : p ∈ abi ∨ p = (key, val) := by
  induction abi with
  | nil =>
    right
    simpa [jsObjectSet] using h
  | cons kv rest ih =>
    obtain ⟨k, v⟩ := kv
    by_cases hk : k = key
    · rw [jsObjectSet, if_pos hk] at h
      rcases List.mem_cons.mp h with rfl | h
      · right
        rw [hk]
      · left
        exact List.mem_cons_of_mem _ h
    · rw [jsObjectSet, if_neg hk] at h
      rcases List.mem_cons.mp h with rfl | h
      · left
        exact List.mem_cons_self _ _
      · rcases ih h with h | h
        · left
          exact List.mem_cons_of_mem _ h
        · right
          exact h

/-- Helper: the assigned key is bound after a JS object assignment. -/
theorem jsObjectSet_key_mem (abi : List (String × AbiEntry)) (key : String)
    (val : AbiEntry) : ∃ w, (key, w) ∈ jsObjectSet abi key val := by
  induction abi with
  | nil => exact ⟨val, by simp [jsObjectSet]⟩
  | cons kv rest ih =>
    obtain ⟨k, v⟩ := kv
    by_cases hk : k = key
    · subst hk
      exact ⟨val, by rw [jsObjectSet, if_pos rfl]; exact List.mem_cons_self _ _⟩
    · obtain ⟨w, hw⟩ := ih
      exact ⟨w, by rw [jsObjectSet, if_neg hk]; exact List.mem_cons_of_mem _ hw⟩

/-- Helper: assignment preserves every bound key. -/
theorem jsObjectSet_preserves_key (abi : List (String × AbiEntry))
    (key : String) (val : AbiEntry) (k' : String)
    (h : ∃ w, (k', w) ∈ abi) : ∃ w, (k', w) ∈ jsObjectSet abi key val := by
  by_cases hk : k' = key
  · subst hk
    exact jsObjectSet_key_mem abi k' val
  · obtain ⟨w, hw⟩ := h
    refine ⟨?_, ?_⟩
    case _ => exact w
    induction abi with
    | nil => exact absurd hw (List.not_mem_nil _)
    | cons kv rest ih =>
      obtain ⟨k, v⟩ := kv
      by_cases hke : k = key
      · rw [jsObjectSet, if_pos hke]
        rcases List.mem_cons.mp hw with heq | hw2
        · exfalso
          apply hk
          have : k' = k := congrArg Prod.fst heq
          rw [this, hke]
        · exact List.mem_cons_of_mem _ hw2
      · rw [jsObjectSet, if_neg hke]
        rcases List.mem_cons.mp hw with heq | hw2
        · rw [heq]
          exact List.mem_cons_self _ _
        · exact List.mem_cons_of_mem _ (ih hw2)

/-- Helper: assignment with a non-empty key keeps all keys non-empty. -/
theorem jsObjectSet_keys_ne (abi : List (String × AbiEntry)) (key : String)
    (val : AbiEntry) (hk : key ≠ "") (h : ∀ p ∈ abi, p.1 ≠ "") :
    ∀ p ∈ jsObjectSet abi key val, p.1 ≠ "" := by
  intro p hp
  rcases jsObjectSet_mem abi key val p hp with hp | rfl
  · exact h p hp
  · exact hk

/-- Helper: the loop fails iff some remaining entry has a falsy name. -/
theorem readAbiLoop_error_iff (entries : List AbiEntry) :
    ∀ acc, (∃ e, readAbiLoop entries acc = .error e) ↔
      ∃ entry ∈ entries, optStrTruthy entry.name = false := by
  induction entries with
  | nil =>
    intro acc
    simp [readAbiLoop]
  | cons entry rest ih =>
    intro acc
    cases hn : entry.name with
    | none =>
      constructor
      · intro _
        exact ⟨entry, List.mem_cons_self _ _, by simp [optStrTruthy, hn]⟩
      · intro _
        exact ⟨"Abi entry has no name", by rw [readAbiLoop, hn]⟩
    | some s =>
      by_cases hs : s = ""
      · subst hs
        constructor
        · intro _
          exact ⟨entry, List.mem_cons_self _ _, by simp [optStrTruthy, hn]⟩
        · intro _
          exact ⟨"Abi entry has no name", by rw [readAbiLoop, hn]; exact if_pos rfl⟩
      · have hred : readAbiLoop (entry :: rest) acc
            = readAbiLoop rest (jsObjectSet acc s entry) := by
          rw [readAbiLoop, hn]
          exact if_neg hs
        rw [hred, ih (jsObjectSet acc s entry)]
        constructor
        · rintro ⟨x, hx, hfx⟩
          exact ⟨x, List.mem_cons_of_mem _ hx, hfx⟩
        · rintro ⟨x, hx, hfx⟩
          rcases List.mem_cons.mp hx with rfl | hx
          · rw [hn] at hfx
            simp [optStrTruthy, hs] at hfx
          · exact ⟨x, hx, hfx⟩

/-- Helper: a successful loop run binds every processed entry's (non-empty)
name in the final index and preserves the accumulator's keys. -/
theorem readAbiLoop_ok_keys (entries : List AbiEntry) :
    ∀ acc abi, readAbiLoop entries acc = .ok abi →
      (∀ k, (∃ w, (k, w) ∈ acc) → ∃ w, (k, w) ∈ abi) ∧
      (∀ entry ∈ entries, ∃ s, entry.name = some s ∧ s ≠ "" ∧
        ∃ w, (s, w) ∈ abi) := by
  induction entries with
  | nil =>
    intro acc abi h
    injection h with h
    subst h
    exact ⟨fun k hk => hk, fun entry he => absurd he (List.not_mem_nil _)⟩
  | cons entry rest ih =>
    intro acc abi h
    cases hn : entry.name with
    | none =>
      rw [readAbiLoop, hn] at h
      exact nomatch h
    | some s =>
      by_cases hs : s = ""
      · rw [readAbiLoop, hn] at h
        dsimp only at h
        rw [if_pos hs] at h
        exact nomatch h
      · rw [readAbiLoop, hn] at h
        dsimp only at h
        rw [if_neg hs] at h
        obtain ⟨hkeys, hentries⟩ := ih (jsObjectSet acc s entry) abi h
        constructor
        · intro k hk
          exact hkeys k (jsObjectSet_preserves_key acc s entry k hk)
        · intro x hx
          rcases List.mem_cons.mp hx with heq | hx
          · rw [heq]
            exact ⟨s, hn, hs, hkeys s (jsObjectSet_key_mem acc s entry)⟩
          · exact hentries x hx

/-- Helper: a successful loop run keeps every key of the index non-empty. -/
theorem readAbiLoop_ok_keys_ne (entries : List AbiEntry) :
    ∀ acc abi, readAbiLoop entries acc = .ok abi →
      (∀ p ∈ acc, p.1 ≠ "") → ∀ p ∈ abi, p.1 ≠ "" := by
  induction entries with
  | nil =>
    intro acc abi h hacc
    injection h with h
    subst h
    exact hacc
  | cons entry rest ih =>
    intro acc abi h hacc
    cases hn : entry.name with
    | none =>
      rw [readAbiLoop, hn] at h
      exact nomatch h
    | some s =>
      by_cases hs : s = ""
      · rw [readAbiLoop, hn] at h
        dsimp only at h
        rw [if_pos hs] at h
        exact nomatch h
      · rw [readAbiLoop, hn] at h
        dsimp only at h
        rw [if_neg hs] at h
        exact ih (jsObjectSet acc s entry) abi h
          (jsObjectSet_keys_ne acc s entry hs hacc)

/-- Helper: a bound key is found by the index lookup. -/
theorem abiLookup_isSome_of_mem (abi : List (String × AbiEntry))
    (k : String) (w : AbiEntry) (h : (k, w) ∈ abi) :
    (abiLookup abi k).isSome = true := by
  unfold abiLookup
  rw [Option.isSome_map']
  exact List.find?_isSome.mpr ⟨(k, w), h, by simp⟩

/-- C8: loading an ABI fails iff some entry of the array has a falsy
(absent or empty) name; on success every entry's name is bound in the
built index, and every entry of the index has a non-empty name. -/
theorem readAbi_characterization (abiArray : List AbiEntry) :
    ((∃ e, readAbi abiArray = .error e) ↔
      ∃ entry ∈ abiArray, optStrTruthy entry.name = false)
    ∧ ∀ abi, readAbi abiArray = .ok abi →
        (∀ entry ∈ abiArray, ∃ s, entry.name = some s ∧ s ≠ "" ∧
          (abiLookup abi s).isSome = true)
        ∧ ∀ p ∈ abi, p.1 ≠ "" := by
  constructor
  · exact readAbiLoop_error_iff abiArray []
  · intro abi h
    obtain ⟨-, hentries⟩ := readAbiLoop_ok_keys abiArray [] abi h
    constructor
    · intro entry he
      obtain ⟨s, hn, hs, w, hw⟩ := hentries entry he
      exact ⟨s, hn, hs, abiLookup_isSome_of_mem abi s w hw⟩
    · exact readAbiLoop_ok_keys_ne abiArray [] abi h
        (fun p hp => absurd hp (List.not_mem_nil _))
